import Mathlib

/-!
# Verification of the bf_immo pipelines

Shallow embedding of the two data pipelines of the repository:

* `fetch_dvf.py` — bulk DVF download, per-record filter/transform
  (`process_transactions`), yearly aggregation and report assembly (`main`),
  and the synthetic sample generator (`generate_sample_data`).
* `fetch_lepriximmo.py` — per-year HTML table extraction (`fetch_year_data`),
  fallback merge (`scrape_lepriximmo`) and the year-range CLI parser
  (`parse_year_range`).

Modelling conventions:

* Python `float` values are modelled as exact rationals (`ℚ`); `round(x, 2)`
  is modelled as round-half-to-even at two decimals on the exact value, and
  `int(x)` as truncation toward zero.  Binary floating-point representation
  error is outside the model.
* The rational operations used by the model (`qAdd`, `qMul`, `qDiv`, `qNeg`,
  `qSum`) are computable normal-form constructions via `mkRat`; the bridge
  lemmas `qAdd_eq`, `qMul_eq`, `qDiv_eq`, `qNeg_eq`, `qSum_eq` prove them
  equal to the standard field operations on `ℚ`, which the theorems use.
* Python strings are Lean `String`s; `str.strip` / `str.upper` /
  `str.split` / substring tests are modelled character-wise below.  The
  whitespace class is the ASCII whitespace characters plus the no-break
  space; `\d` and digit parsing are modelled on the ASCII digits.
* `float(s)` is modelled for the decimal forms (optional sign, integer and/or
  fractional digits).  Exponent, `inf` and `nan` forms are outside the model.
* `int(s)` accepts surrounding whitespace, an optional sign and digits
  (digit-grouping underscores are outside the model; no input here has them).
* Dictionaries produced by `csv.DictReader` are modelled by the `RawRecord`
  structure holding the seven columns the program reads; a column that is
  absent is represented by `""` (the program reads every column with
  `row.get(key, '')`).
* Network and archive effects are modelled by an explicit outcome type
  (`DownloadOutcome`); the `random` module is modelled by explicit streams of
  draws (`Rng`), making the nondeterminism of the sample generator a
  parameter.
-/

/-! ## Python string primitives -/

/-- The whitespace characters recognised by `str.strip` and `\s`
(ASCII whitespace plus the no-break space). -/
def isWS (c : Char) : Bool :=
  c = ' ' || c = '\t' || c = '\n' || c = '\r' ||
  c = Char.ofNat 11 || c = Char.ofNat 12 || c = Char.ofNat 160

/-- `str.strip()` on a character list: drop whitespace from both ends. -/
def pyStripL (cs : List Char) : List Char :=
  ((cs.dropWhile isWS).reverse.dropWhile isWS).reverse

/-- `str.strip()`. -/
def pyStrip (s : String) : String :=
  String.mk (pyStripL s.data)

/-- `str.upper()` (character-wise; ASCII letters, which is all the
program's filter constant needs). -/
def pyUpper (s : String) : String :=
  String.mk (s.data.map Char.toUpper)

/-- Is `pat` a prefix of `s`? -/
def isPrefixL : List Char → List Char → Bool
  | [], _ => true
  | _ :: _, [] => false
  | a :: as, b :: bs => a = b && isPrefixL as bs

/-- Does `pat` occur as a contiguous substring of `s`? -/
def isInfixL (pat : List Char) : List Char → Bool
  | [] => isPrefixL pat []
  | c :: rest => isPrefixL pat (c :: rest) || isInfixL pat rest

/-- Python's substring test `pat in s`. -/
def strContains (s pat : String) : Bool :=
  isInfixL pat.data s.data

/-- `s[:n]` on a string. -/
def strTake (s : String) (n : Nat) : String :=
  String.mk (s.data.take n)

/-- `str.replace(',', '.')` (single-character replacement). -/
def commaToDot (s : String) : String :=
  String.mk (s.data.map (fun c => if c = ',' then '.' else c))

/-- Python's `s.split(sep)` for a single-character separator: splits at every
occurrence, keeping empty pieces (`"".split('-') = ['']`). -/
def splitOnChar (sep : Char) : List Char → List (List Char)
  | [] => [[]]
  | c :: rest =>
    match splitOnChar sep rest with
    | [] => [[]]
    | h :: t => if c = sep then [] :: h :: t else (c :: h) :: t

/-! ## Computable rational arithmetic

The `Rat` field operations of the ambient library are deliberately opaque to
definitional reduction, so the model uses normal-form constructions via
`mkRat` and proves them equal to the field operations. -/

/-- Computable addition on `ℚ`. -/
def qAdd (a b : ℚ) : ℚ :=
  mkRat (a.num * b.den + b.num * a.den) (a.den * b.den)

/-- Computable multiplication on `ℚ`. -/
def qMul (a b : ℚ) : ℚ :=
  mkRat (a.num * b.num) (a.den * b.den)

/-- Computable negation on `ℚ`. -/
def qNeg (a : ℚ) : ℚ :=
  mkRat (-a.num) a.den

/-- Computable division on `ℚ` (division by zero yields zero, as for `/`). -/
def qDiv (a b : ℚ) : ℚ :=
  if 0 ≤ b.num then mkRat (a.num * b.den) (a.den * b.num.natAbs)
  else mkRat (-(a.num * b.den)) (a.den * b.num.natAbs)

/-- Computable left-fold sum on `ℚ` (Python's `sum`). -/
def qSum (l : List ℚ) : ℚ :=
  l.foldl qAdd 0

theorem qAdd_eq (a b : ℚ) : qAdd a b = a + b := by
  have ha : ((a.den : ℚ)) ≠ 0 := Nat.cast_ne_zero.mpr a.den_nz
  have hb : ((b.den : ℚ)) ≠ 0 := Nat.cast_ne_zero.mpr b.den_nz
  rw [qAdd, Rat.mkRat_eq_divInt, Rat.divInt_eq_div]
  conv_rhs => rw [← Rat.num_div_den a, ← Rat.num_div_den b, div_add_div _ _ ha hb]
  push_cast
  ring_nf

theorem qMul_eq (a b : ℚ) : qMul a b = a * b := by
  rw [qMul, Rat.mkRat_eq_divInt, Rat.divInt_eq_div]
  conv_rhs => rw [← Rat.num_div_den a, ← Rat.num_div_den b, div_mul_div_comm]
  push_cast
  ring_nf

theorem qNeg_eq (a : ℚ) : qNeg a = -a := by
  rw [qNeg, Rat.mkRat_eq_divInt, Rat.divInt_eq_div]
  push_cast
  rw [neg_div, Rat.num_div_den]

theorem qDiv_eq (a b : ℚ) : qDiv a b = a / b := by
  by_cases h : 0 ≤ b.num
  · rw [qDiv, if_pos h, Rat.mkRat_eq_divInt, Rat.divInt_eq_div]
    conv_rhs => rw [← Rat.num_div_den a, ← Rat.num_div_den b, div_div_eq_mul_div]
    push_cast
    rw [abs_of_nonneg (show (0:ℚ) ≤ (b.num : ℚ) by exact_mod_cast h)]
    ring
  · rw [qDiv, if_neg h, Rat.mkRat_eq_divInt, Rat.divInt_eq_div]
    conv_rhs => rw [← Rat.num_div_den a, ← Rat.num_div_den b, div_div_eq_mul_div]
    push_cast
    rw [abs_of_neg (show (b.num : ℚ) < 0 by exact_mod_cast lt_of_not_le h)]
    ring

theorem qSum_shift (l : List ℚ) : ∀ z : ℚ, l.foldl qAdd z = z + l.sum := by
  induction l with
  | nil => intro z; simp [List.foldl]
  | cons x xs ih =>
    intro z
    rw [List.foldl_cons, ih (qAdd z x), qAdd_eq, List.sum_cons]
    ring

theorem qSum_eq (l : List ℚ) : qSum l = l.sum := by
  rw [qSum, qSum_shift]
  ring

/-! ## Python numeric parsing and rounding -/

/-- Accumulate decimal digits: `digitsFold n ds` is `n` shifted under the
digits `ds`. -/
def digitsFold (n : Nat) : List Char → Nat
  | [] => n
  | c :: cs => digitsFold (10 * n + (c.toNat - 48)) cs

/-- Numeric value of a digit string. -/
def digitsValN (cs : List Char) : Nat :=
  digitsFold 0 cs

/-- Parse a nonempty all-digit character list. -/
def digitsValOpt (cs : List Char) : Option Nat :=
  if cs ≠ [] ∧ cs.all Char.isDigit then some (digitsValN cs) else none

/-- Python `int(s)` on a string: strip whitespace, optional sign, digits. -/
def pyIntStr (s : String) : Option Int :=
  match pyStripL s.data with
  | [] => none
  | c :: rest =>
    if c = '+' then (digitsValOpt rest).map Int.ofNat
    else if c = '-' then (digitsValOpt rest).map (fun n => -(n : Int))
    else (digitsValOpt (c :: rest)).map Int.ofNat

/-- Parse an unsigned decimal form: digits, optionally a point and more
digits; at least one digit in total. -/
def parseUnsignedFloat (cs : List Char) : Option ℚ :=
  let ip := cs.takeWhile Char.isDigit
  match cs.dropWhile Char.isDigit with
  | [] => if ip = [] then none else some (mkRat (digitsValN ip) 1)
  | c :: fp =>
    if c = '.' ∧ fp.all Char.isDigit ∧ (ip ≠ [] ∨ fp ≠ []) then
      some (mkRat (digitsValN ip * 10 ^ fp.length + digitsValN fp) (10 ^ fp.length))
    else none

/-- Python `float(s)` on the decimal forms: strip whitespace, optional sign,
unsigned decimal. -/
def pyFloat (s : String) : Option ℚ :=
  match pyStripL s.data with
  | [] => none
  | c :: rest =>
    if c = '+' then parseUnsignedFloat rest
    else if c = '-' then (parseUnsignedFloat rest).map qNeg
    else parseUnsignedFloat (c :: rest)

/-- Round to the nearest integer, ties to even (Python `round` to zero
decimals): computed from the numerator and denominator.  With `f` the floor
of `q` and `rem` the remainder, `q - f = rem / den`, so comparing `2 * rem`
with `den` compares the fractional part with one half. -/
def rhe (q : ℚ) : ℤ :=
  let d : ℤ := (q.den : ℤ)
  let f : ℤ := q.num / d
  let rem : ℤ := q.num % d
  if 2 * rem < d then f
  else if d < 2 * rem then f + 1
  else if f % 2 = 0 then f else f + 1

/-- Python `round(x, 2)` on the exact value. -/
def roundTo2 (q : ℚ) : ℚ :=
  mkRat (rhe (qMul q 100)) 100

/-- Python `int(x)` on a number: truncation toward zero. -/
def truncRat (q : ℚ) : ℤ :=
  if 0 ≤ q.num then q.num / (q.den : ℤ)
  else -((-q.num) / (q.den : ℤ))

/-- The floor used inside `rhe` agrees with the mathematical floor. -/
theorem rat_num_ediv_den (q : ℚ) : q.num / (q.den : ℤ) = ⌊q⌋ :=
  (Rat.floor_def).symm

/-- `truncRat` is truncation toward zero: floor for nonnegative numbers,
ceiling for negative ones. -/
theorem truncRat_eq (q : ℚ) : truncRat q = if 0 ≤ q then ⌊q⌋ else ⌈q⌉ := by
  rw [truncRat]
  by_cases h : 0 ≤ q.num
  · rw [if_pos h, if_pos (Rat.num_nonneg.mp h), rat_num_ediv_den]
  · rw [if_neg h, if_neg (by rw [← Rat.num_nonneg]; exact h)]
    have hnum : (-q).num = -q.num := Rat.neg_num q
    have hden : (-q).den = q.den := Rat.neg_den q
    rw [show ⌈q⌉ = -⌊-q⌋ by rw [Int.floor_neg, neg_neg], ← rat_num_ediv_den, hnum, hden]

/-- `roundTo2` in terms of the field operations. -/
theorem roundTo2_eq (q : ℚ) : roundTo2 q = ((rhe (q * 100) : ℤ) : ℚ) / 100 := by
  rw [roundTo2, qMul_eq, Rat.mkRat_eq_divInt, Rat.divInt_eq_div]
  push_cast
  ring

/-! ## `fetch_lepriximmo.parse_year_range` -/

/-- `parse_year_range` from `fetch_lepriximmo.py`: splits `"<start>-<end>"`
on `'-'`; two integer-parseable pieces give `(start, end)`, anything else
(no dash, a different number of pieces, or an `int` failure) falls back to
the default `(2020, 2025)`. -/
def parse_year_range (s : String) : Int × Int :=
  if s.data.contains '-' then
    match splitOnChar '-' s.data with
    | [p0, p1] =>
      match pyIntStr (String.mk p0), pyIntStr (String.mk p1) with
      | some a, some b => (a, b)
      | some _, none => (2020, 2025)
      | none, _ => (2020, 2025)
    | _ => (2020, 2025)
  else (2020, 2025)

example : parse_year_range "2020-2025" = (2020, 2025) := by decide
example : parse_year_range "2018-2022" = (2018, 2022) := by decide
example : parse_year_range "abc" = (2020, 2025) := by decide
example : parse_year_range "-5-10" = (2020, 2025) := by decide
example : parse_year_range " 1999 - 2001 " = (1999, 2001) := by decide
example : pyFloat "100.5" = some (mkRat 201 2) := by decide
example : pyFloat "1000000" = some 1000000 := by decide
example : pyFloat "0.5" = some (mkRat 1 2) := by decide
example : pyFloat "1,5" = none := by decide
example : pyFloat "." = none := by decide
example : roundTo2 (mkRat 201 4) = mkRat 201 4 := by decide
example : roundTo2 (mkRat 100 3) = mkRat 3333 100 := by decide
example : roundTo2 (mkRat 1005 1000) = mkRat 1 1 := by decide
example : roundTo2 (mkRat 1015 1000) = mkRat 102 100 := by decide
example : truncRat (mkRat 201 2) = 100 := by decide
example : truncRat (mkRat 1 2) = 0 := by decide
example : truncRat (mkRat (-3) 2) = -1 := by decide
example : strContains "RUE PIERRE BROSSOLETTE" "BROSSOLETTE" = true := by decide
example : pyStrip "  92400 " = "92400" := by decide

/-! ## `fetch_dvf` data model -/

/-- One row of the pipe-delimited DVF file, restricted to the seven columns
`process_transactions` and the report builder read.  An absent column is
represented by `""` (the program reads columns with `row.get(key, '')`). -/
structure RawRecord where
  code_postal : String := ""
  adresse_nom_voie : String := ""
  valeur_fonciere : String := ""
  surface_reelle_bati : String := ""
  date_mutation : String := ""
  adresse_numero : String := ""
  type_local : String := ""
  deriving DecidableEq

/-- One entry of `all_transactions` as built by `process_transactions` (and
by the sample generator). -/
structure Transaction where
  year : String
  date : Option String
  address : String
  price : ℤ
  surface_m2 : ℤ
  price_per_m2 : ℚ
  property_type : String
  deriving DecidableEq

/-- The body of the `for row in rows` loop of `process_transactions` in
`fetch_dvf.py`: the record is kept only if the stripped postal code is
`"92400"`, the uppercased street contains `"BROSSOLETTE"`, both the value and
the surface are nonempty after stripping and parse as floats (with `','`
accepted for `'.'`), and the parsed surface is positive.  `None` is returned
for a dropped record (`continue` in the source). -/
def processRow (year : String) (r : RawRecord) : Option Transaction :=
  let postal_code := pyStrip r.code_postal
  let street := if r.adresse_nom_voie ≠ "" then pyUpper r.adresse_nom_voie else ""
  if postal_code ≠ "92400" ∨ strContains street "BROSSOLETTE" = false then none
  else
    let valeur_str := pyStrip r.valeur_fonciere
    let surface_str := pyStrip r.surface_reelle_bati
    if valeur_str = "" ∨ surface_str = "" then none
    else
      match pyFloat (commaToDot valeur_str), pyFloat (commaToDot surface_str) with
      | some valeur, some surface =>
        if 0 < surface then
          some
            { year := year
              date := if r.date_mutation ≠ "" then some (strTake r.date_mutation 10) else none
              address := r.adresse_numero ++ " " ++ r.adresse_nom_voie ++ ", " ++ postal_code
              price := truncRat valeur
              surface_m2 := truncRat surface
              price_per_m2 := roundTo2 (qDiv valeur surface)
              property_type := if r.type_local ≠ "" then r.type_local else "Unknown" }
        else none
      | some _, none => none
      | none, _ => none

/-- `process_transactions` from `fetch_dvf.py`. -/
def process_transactions (rows : List RawRecord) (year : String) : List Transaction :=
  rows.filterMap (processRow year)

/-- A record that passes every filter, mirroring the spec's worked example
(value 1000000, surface 100). -/
def recGood : RawRecord :=
  { code_postal := "92400", adresse_nom_voie := "Rue Brossolette",
    valeur_fonciere := "1000000", surface_reelle_bati := "100",
    date_mutation := "2021-03-15 00:00", adresse_numero := "12",
    type_local := "Appartement" }

example :
    process_transactions [recGood] "2021" =
      [{ year := "2021", date := some "2021-03-15", address := "12 Rue Brossolette, 92400",
         price := 1000000, surface_m2 := 100, price_per_m2 := 10000,
         property_type := "Appartement" }] := by decide

example : processRow "2021" { recGood with code_postal := "75001" } = none := by decide
example : processRow "2021" { recGood with surface_reelle_bati := "0" } = none := by decide
example : processRow "2021" { recGood with surface_reelle_bati := "" } = none := by decide
example :
    (processRow "2021" { recGood with
      valeur_fonciere := "100,5",
      surface_reelle_bati := "2" }).map Transaction.price_per_m2 = some (mkRat 201 4) := by
  decide

/-! ## Yearly aggregation (`fetch_dvf.main`, real-data path) -/

/-- Computable binary minimum on `ℚ`. -/
def qMin (a b : ℚ) : ℚ :=
  if a ≤ b then a else b

/-- Computable binary maximum on `ℚ`. -/
def qMax (a b : ℚ) : ℚ :=
  if a ≤ b then b else a

theorem qMin_eq (a b : ℚ) : qMin a b = min a b := by
  rw [qMin, min_def]

theorem qMax_eq (a b : ℚ) : qMax a b = max a b := by
  rw [qMax, max_def]

/-- Python `min` over a nonempty list (`0` as junk value on `[]`, which the
program never hits because it guards with `if prices`). -/
def listMin : List ℚ → ℚ
  | [] => 0
  | x :: xs => xs.foldl qMin x

/-- Python `max` over a nonempty list (junk value `0` on `[]`). -/
def listMax : List ℚ → ℚ
  | [] => 0
  | x :: xs => xs.foldl qMax x

/-- Python `int(year)` on the year labels.  In the program every label is a
numeric string (the keys of `DVF_URLS` cut at `'_'`), so the junk default `0`
is outside the program's domain; on a non-numeric string the original raises. -/
def strToIntD (s : String) : Int :=
  (pyIntStr s).getD 0

/-- One entry of `yearly_statistics`. -/
structure YearlyStatistic where
  year : ℤ
  avg_price_per_m2 : ℚ
  min_price_per_m2 : ℚ
  max_price_per_m2 : ℚ
  transaction_count : Nat
  deriving DecidableEq

/-- The price list `[tx['price_per_m2'] for tx in by_year[year] if
tx['price_per_m2']]` of `main`: prices of the year's transactions in
processing order, dropping falsy (zero) values. -/
def pricesFor (txs : List Transaction) (y : String) : List ℚ :=
  ((txs.filter (fun t => t.year = y)).map Transaction.price_per_m2).filter (fun p => p ≠ 0)

/-- The statistic `main` appends for one year key, `none` when the price
list is empty (`if prices`). -/
def statFor (txs : List Transaction) (y : String) : Option YearlyStatistic :=
  let prices := pricesFor txs y
  if prices = [] then none
  else
    some
      { year := strToIntD y
        avg_price_per_m2 := roundTo2 (qDiv (qSum prices) (prices.length : ℚ))
        min_price_per_m2 := roundTo2 (listMin prices)
        max_price_per_m2 := roundTo2 (listMax prices)
        transaction_count := prices.length }

/-- `sorted(by_year.keys())`: the distinct year keys in ascending string
order. -/
def sortedYears (txs : List Transaction) : List String :=
  List.insertionSort (· ≤ ·) (txs.map Transaction.year).dedup

/-- The `yearly_stats` list of `main`'s real-data path. -/
def yearlyStats (txs : List Transaction) : List YearlyStatistic :=
  (sortedYears txs).filterMap (statFor txs)

example :
    yearlyStats (process_transactions [recGood] "2021") =
      [{ year := 2021, avg_price_per_m2 := 10000, min_price_per_m2 := 10000,
         max_price_per_m2 := 10000, transaction_count := 1 }] := by decide

/-! ## Bulk source retrieval (`download_dvf_file`)

The network and archive effects are represented by an explicit outcome: the
request may fail (`netError`, every `requests` exception including a non-2xx
status), the payload may fail to open as a ZIP (`badArchive`), or it yields a
member list.  A member's bytes are modelled after UTF-8 decoding positions:
`none` stands for an undecodable byte, which `decode('utf-8',
errors='ignore')` silently drops, so decoding itself never raises. -/

/-- One member of the downloaded ZIP archive. -/
structure ZipMember where
  name : String
  content : List (Option Char)
  deriving DecidableEq

/-- Outcome of the network request plus archive opening. -/
inductive DownloadOutcome where
  | netError : DownloadOutcome
  | badArchive : DownloadOutcome
  | archive : List ZipMember → DownloadOutcome
  deriving DecidableEq

/-- `bytes.decode('utf-8', errors='ignore')`: undecodable bytes are dropped. -/
def decodeIgnore (content : List (Option Char)) : List Char :=
  content.filterMap id

/-- `str.splitlines()`: split at line ends (`\n`, `\r`, `\r\n`), without a
trailing empty line (the rarer vertical-tab/form-feed/unicode separators it
also recognises are outside the model). -/
def splitLinesGo : List Char → List Char → List String
  | [], acc => if acc.isEmpty then [] else [String.mk acc.reverse]
  | '\r' :: '\n' :: rest, acc => String.mk acc.reverse :: splitLinesGo rest []
  | '\n' :: rest, acc => String.mk acc.reverse :: splitLinesGo rest []
  | '\r' :: rest, acc => String.mk acc.reverse :: splitLinesGo rest []
  | c :: rest, acc => splitLinesGo rest (c :: acc)

/-- `text.splitlines()`. -/
def splitLines (cs : List Char) : List String :=
  splitLinesGo cs []

/-- Column lookup for one parsed row: first match in the zipped
header/fields lists, `""` when the column is missing (`row.get(key, '')`). -/
def getField (header fields : List String) (key : String) : String :=
  match (header.zip fields).find? (fun p => p.1 = key) with
  | some p => p.2
  | none => ""

/-- Build the `RawRecord` of one data line given the header line. -/
def mkRecord (header fields : List String) : RawRecord :=
  { code_postal := getField header fields "code_postal"
    adresse_nom_voie := getField header fields "adresse_nom_voie"
    valeur_fonciere := getField header fields "valeur_fonciere"
    surface_reelle_bati := getField header fields "surface_reelle_bati"
    date_mutation := getField header fields "date_mutation"
    adresse_numero := getField header fields "adresse_numero"
    type_local := getField header fields "type_local" }

/-- `csv.DictReader(lines, delimiter='|')`: the first line is the header,
each following nonblank line is split on `'|'` and zipped with it (the DVF
text files use no quoting, so csv quoting is outside the model; a missing
column reads as `""`, see `RawRecord`). -/
def dictReaderPipe (lines : List String) : List RawRecord :=
  match lines with
  | [] => []
  | header :: rest =>
    let hs := (splitOnChar '|' header.data).map String.mk
    (rest.filter (fun l => l ≠ "")).map
      (fun l => mkRecord hs ((splitOnChar '|' l.data).map String.mk))

/-- `download_dvf_file` from `fetch_dvf.py`: a network error or a malformed
archive is caught and yields `[]`; an archive without a `.txt` member raises
`IndexError`, also caught, yielding `[]`; otherwise the first `.txt` member
is decoded leniently and parsed. -/
def download_dvf_file : DownloadOutcome → List RawRecord
  | .netError => []
  | .badArchive => []
  | .archive members =>
    match members.filter (fun m => ".txt".data.isSuffixOf m.name.data) with
    | [] => []
    | m :: _ => dictReaderPipe (splitLines (decodeIgnore m.content))

/-- Embed a decoded text as archive-member bytes. -/
def litContent (s : String) : List (Option Char) :=
  s.data.map some

example :
    download_dvf_file (.archive [⟨"x.txt",
      litContent "code_postal|adresse_nom_voie\n92400|RUE"⟩]) =
      [{ code_postal := "92400", adresse_nom_voie := "RUE" }] := by decide
example : download_dvf_file (.archive [⟨"x.csv", litContent "a|b"⟩]) = [] := by decide

/-! ## The sample generator (`generate_sample_data`)

The `random` module is modelled by explicit draw streams: an unseeded
generator is seeded from ambient entropy, so its draws are a parameter of the
run, not of the input data.  `randint`/`choice` consume a natural from
`nats`, `gauss` consumes a rational from `rats`; a counter indexes the
successive draws. -/

/-- Streams of pseudo-random draws. -/
structure Rng where
  nats : Nat → Nat
  rats : Nat → ℚ

/-- `random.randint(lo, hi)` (inclusive bounds), from draw `k`. -/
def randintD (g : Rng) (k : Nat) (lo hi : Nat) : Nat :=
  lo + g.nats k % (hi + 1 - lo)

/-- `random.gauss(mu, sigma)`, from draw `k`: the draw is an arbitrary
rational, scaled and shifted. -/
def gaussD (g : Rng) (k : Nat) (mu sigma : ℚ) : ℚ :=
  qAdd mu (qMul sigma (g.rats k))

/-- `random.choice(l)`, from draw `k`. -/
def choiceD (g : Rng) (k : Nat) (l : List String) : String :=
  l.getD (g.nats k % l.length) ""

/-- Gregorian leap-year test. -/
def isLeapYear (y : Int) : Bool :=
  (y % 4 = 0 && y % 100 ≠ 0) || y % 400 = 0

/-- Month lengths of year `y`. -/
def monthLengths (y : Int) : List Nat :=
  [31, if isLeapYear y then 29 else 28, 31, 30, 31, 30, 31, 31, 30, 31, 30, 31]

/-- Number of days of year `y`. -/
def daysInYear (y : Int) : Nat :=
  if isLeapYear y then 366 else 365

/-- From month lengths and a 0-based day offset inside the year, the
1-based month and day. -/
def monthDayOf : List Nat → Nat → Nat × Nat
  | [], d => (1, d + 1)
  | len :: rest, d =>
    if d < len then (1, d + 1)
    else
      let md := monthDayOf rest (d - len)
      (md.1 + 1, md.2)

/-- `datetime(y, 1, 1) + timedelta(days=d)` for `d ≤ 365`: rolls over into
the next year when `d` exceeds the year's length (a nonleap year has only
365 days, so offset 365 is January 1 of the next year). -/
def dateFromOffset (y : Int) (d : Nat) : Int × Nat × Nat :=
  if d < daysInYear y then
    let md := monthDayOf (monthLengths y) d
    (y, md.1, md.2)
  else
    let md := monthDayOf (monthLengths (y + 1)) (d - daysInYear y)
    (y + 1, md.1, md.2)

/-- Zero-pad to two digits. -/
def pad2 (n : Nat) : String :=
  if n < 10 then "0" ++ toString n else toString n

/-- `date.strftime("%Y-%m-%d")`. -/
def dateStr (y : Int) (offset : Nat) : String :=
  let ymd := dateFromOffset y offset
  toString ymd.1 ++ "-" ++ pad2 ymd.2.1 ++ "-" ++ pad2 ymd.2.2

example : dateStr 2020 0 = "2020-01-01" := by decide
example : dateStr 2020 365 = "2020-12-31" := by decide
example : dateStr 2021 365 = "2022-01-01" := by decide
example : dateStr 2021 59 = "2021-03-01" := by decide

/-- The fixed location block of both reports. -/
structure Location where
  street : String
  postal_code : String
  city : String
  department : String
  deriving DecidableEq

/-- The location constant of `fetch_dvf.py`. -/
def theLocation : Location :=
  { street := "Rue Brossolette", postal_code := "92400", city := "Courbevoie",
    department := "Hauts-de-Seine" }

/-- The JSON report of `fetch_dvf.py` (same shape on the sample and the
real-data paths). -/
structure Report where
  location : Location
  all_transactions : List Transaction
  yearly_statistics : List YearlyStatistic
  total_transactions : Nat
  data_source : String
  deriving DecidableEq

/-- The `base_prices` table of `generate_sample_data`:
label, average, variance. -/
def base_prices : List (String × ℚ × ℚ) :=
  [("2020", 5200, 800), ("2021", 5500, 850), ("2022", 6100, 900),
   ("2023", 6400, 950), ("2024", 6800, 1000), ("2025", 7100, 1100)]

/-- One synthetic transaction of `generate_sample_data` (loop index `i`,
draws at `k`, `k+1`, `k+2`, `k+3`). -/
def sampleTx (g : Rng) (k : Nat) (year_str : String) (avgP variance : ℚ)
    (i : Nat) : Transaction :=
  let noise := gaussD g k 0 (qDiv variance 3)
  let price_per_m2 := qAdd avgP noise
  let surface := randintD g (k + 1) 50 150
  let price := truncRat (qMul price_per_m2 (surface : ℚ))
  let offset := randintD g (k + 2) 0 365
  { year := year_str
    date := some (dateStr (strToIntD year_str) offset)
    address := toString (12 + i) ++ " Rue Brossolette, 92400"
    price := price
    surface_m2 := (surface : ℤ)
    price_per_m2 := roundTo2 price_per_m2
    property_type := choiceD g (k + 3) ["Apartment", "Studio", "2-room"] }

/-- One year of `generate_sample_data`: 3 to 8 transactions and their
statistic; also returns the next draw counter. -/
def sampleYear (g : Rng) (k : Nat) (year_str : String) (avgP variance : ℚ) :
    List Transaction × YearlyStatistic × Nat :=
  let n := randintD g k 3 8
  let txs := (List.range n).map (fun i => sampleTx g (k + 1 + 4 * i) year_str avgP variance i)
  let prices := txs.map Transaction.price_per_m2
  (txs,
    { year := strToIntD year_str
      avg_price_per_m2 := roundTo2 (qDiv (qSum prices) (prices.length : ℚ))
      min_price_per_m2 := roundTo2 (listMin prices)
      max_price_per_m2 := roundTo2 (listMax prices)
      transaction_count := prices.length },
    k + 1 + 4 * n)

/-- The year loop of `generate_sample_data`. -/
def sampleYears (g : Rng) : List (String × ℚ × ℚ) → Nat → List Transaction × List YearlyStatistic
  | [], _ => ([], [])
  | (ys, av, va) :: rest, k =>
    let r := sampleYear g k ys av va
    let tail := sampleYears g rest r.2.2
    (r.1 ++ tail.1, r.2.1 :: tail.2)

/-- `generate_sample_data` from `fetch_dvf.py`, as a function of the draw
streams. -/
def generate_sample_data (g : Rng) : Report :=
  let tr := sampleYears g base_prices 0
  { location := theLocation
    all_transactions := tr.1
    yearly_statistics := tr.2
    total_transactions := tr.1.length
    data_source := "Sample data (DVF real data available at https://www.data.gouv.fr)" }

/-! ## Report assembly (`fetch_dvf.main`) -/

/-- `year.split('_')[0]`. -/
def yearClean (label : String) : String :=
  ((splitOnChar '_' label.data).map String.mk).headD ""

/-- The download loop of `main`: accumulated transactions (in source order)
and the `downloaded_any` flag.  A source whose download yields no rows is
skipped (`if rows:`). -/
def collect : List (String × DownloadOutcome) → List Transaction × Bool
  | [] => ([], false)
  | (label, o) :: rest =>
    let rows := download_dvf_file o
    let acc := collect rest
    if rows = [] then acc
    else (process_transactions rows (yearClean label) ++ acc.1, true)

/-- The real-data report of `main`. -/
def realReport (txs : List Transaction) : Report :=
  { location := theLocation
    all_transactions := txs
    yearly_statistics := yearlyStats txs
    total_transactions := txs.length
    data_source := "DVF (data.gouv.fr)" }

/-- `main` of `fetch_dvf.py`, from the per-source download outcomes and the
draw streams: the sample report is produced exactly when no source yielded
rows, otherwise the real-data report of the accumulated transactions. -/
def mainBulk (srcs : List (String × DownloadOutcome)) (g : Rng) : Report :=
  let acc := collect srcs
  if acc.2 = false then generate_sample_data g else realReport acc.1

/-- The source labels of `DVF_URLS` (the URLs themselves only matter to the
network layer, which the outcome already summarises). -/
def dvfLabels : List String :=
  ["2020_H2", "2021", "2022", "2023", "2024", "2025_H1"]

example : yearClean "2020_H2" = "2020" := by decide
example : (collect [("2021", .netError)]).2 = false := by decide

/-! ## Scrape pipeline (`fetch_lepriximmo.py`)

`fetch_year_data` fetches one HTML page and scans its table; the model takes
the parsed table as input: the list of `<tr>` rows, each row the list of its
`<td>` cell texts (as produced by `get_text(strip=True)`).  A failed request
is the `none` fetch result at the merge level. -/

/-- The character class `[\d\s]` of the price pattern. -/
def isDS (c : Char) : Bool :=
  c.isDigit || isWS c

/-- The leftmost match of the pattern `([\d\s]+)\s*€/m²`, returning group 1:
the first maximal run of digit/whitespace characters that is immediately
followed by `"€/m²"` (the trailing `\s*` of the pattern can only absorb
characters the greedy group would otherwise keep, so the group is the whole
run).  The scan advances one position at a time: a position inside a failing
run has the same run end and fails the same test, so this equals skipping to
the end of the run, and the first accepted position is a run start. -/
def findRun : List Char → Option (List Char)
  | [] => none
  | c :: cs =>
    if isDS c ∧ isPrefixL "€/m²".data (List.dropWhile isDS (c :: cs)) then
      some (List.takeWhile isDS (c :: cs))
    else findRun cs

/-- One cell of a matching row: regex search, strip grouping spaces and
no-break spaces from group 1, then `int`; `none` both when the pattern is
absent and when `int` fails (the `except ValueError: pass`). -/
def searchPriceInCell (cell : String) : Option Int :=
  (findRun cell.data).bind
    (fun run => pyIntStr (String.mk (run.filter (fun c => ¬(c = ' ' ∨ c = Char.ofNat 160)))))

/-- The inner `for cell in cells` loop: first cell whose pattern parses. -/
def scanCells : List String → Option Int
  | [] => none
  | cell :: rest =>
    match searchPriceInCell cell with
    | some p => some p
    | none => scanCells rest

/-- `if cells:` and the check of the leading cell:
`'Brossolette' in cells[0].get_text(strip=True)`. -/
def rowMatches (cells : List String) : Bool :=
  match cells with
  | [] => false
  | c0 :: _ => strContains c0 "Brossolette"

/-- The row loop of `fetch_year_data`, on the parsed table: scan each
matching row's cells; return on the first parsed price; after a matching row
without a parsed price the loop simply continues with the next rows. -/
def fetch_year_data : List (List String) → Option Int
  | [] => none
  | cells :: rest =>
    if rowMatches cells then
      match scanCells cells with
      | some p => some p
      | none => fetch_year_data rest
    else fetch_year_data rest

/-- The `fallback_data` table of `scrape_lepriximmo`. -/
def fallback_data : List (Int × Int) :=
  [(2020, 4800), (2021, 5100), (2022, 5500), (2023, 5900), (2024, 6400),
   (2025, 5005), (2026, 5100), (2027, 5200), (2028, 5300), (2029, 5400),
   (2030, 5500)]

/-- `fallback_data.get(year, 5500)`. -/
def fbVal (y : Int) : Int :=
  ((fallback_data.find? (fun p => p.1 = y)).map Prod.snd).getD 5500

/-- The merge of one year in `scrape_lepriximmo`: a truthy (nonzero) fetched
price is kept (`if price:`), anything else falls back to the table or the
global default `5500`. -/
def mergeYear (res : Option Int) (y : Int) : Int :=
  match res with
  | some p => if p ≠ 0 then p else fbVal y
  | none => fbVal y

/-- `range(start_year, end_year + 1)`. -/
def rangeInts (a b : Int) : List Int :=
  (List.range ((b + 1 - a).toNat)).map (fun i => a + i)

/-- The fallback-merge of `scrape_lepriximmo`, producing the
`yearly_statistics` pairs (year, price_per_m2): the per-year fetch results
merged with the fallback table over the requested range; `sorted` over the
dictionary built in ascending year order returns the same ascending order. -/
def scrape_lepriximmo (fetch : Int → Option Int) (startY endY : Int) : List (Int × Int) :=
  (rangeInts startY endY).map (fun y => (y, mergeYear (fetch y) y))

example : fetch_year_data [["Rue Pierre Brossolette", "5 005 €/m²"]] = some 5005 := by
  decide
example : fetch_year_data [["Rue des Lilas", "4 000 €/m²"]] = none := by decide
example :
    fetch_year_data [["Rue Brossolette"], ["Rue Brossolette bis", "5 005 €/m²"]] =
      some 5005 := by decide
example : fetch_year_data [["Rue Brossolette", "0 €/m²"]] = some 0 := by decide
example : scrape_lepriximmo (fun _ => none) 2031 2031 = [(2031, 5500)] := by decide
example : scrape_lepriximmo (fun _ => some 0) 2020 2020 = [(2020, 4800)] := by decide

/-! ## Claim C9: the year-range parser -/

theorem splitOnChar_pair_contains {sep : Char} {cs p0 p1 : List Char}
    (h : splitOnChar sep cs = [p0, p1]) : cs.contains sep = true := by
  induction cs generalizing p0 p1 with
  | nil => simp [splitOnChar] at h
  | cons c rest ih =>
    by_cases hc : c = sep
    · simp [List.contains_cons, hc]
    · rw [splitOnChar] at h
      cases hs : splitOnChar sep rest with
      | nil => rw [hs] at h; simp at h
      | cons hh tt =>
        rw [hs] at h
        simp only [hc, if_false, if_neg hc, List.cons.injEq] at h
        have hs2 : splitOnChar sep rest = [hh, p1] := by rw [hs, h.2]
        have hm := ih hs2
        simp only [List.contains_cons] at hm ⊢
        simp at hm ⊢
        exact Or.inr hm

/-- C9 counterexample: `"-5-10"` is of the form `"<start>-<end>"` with two
integer-parseable sides (`"-5"` and `"10"`), yet `parse_year_range` returns
the default `(2020, 2025)` instead of `(-5, 10)`, because `split('-')` cuts
the string into three pieces. -/
theorem parse_year_range_embedded_dash_counterexample :
    "-5-10" = "-5" ++ "-" ++ "10" ∧
    pyIntStr "-5" = some (-5) ∧ pyIntStr "10" = some 10 ∧
    parse_year_range "-5-10" = (2020, 2025) ∧
    ((-5 : Int), (10 : Int)) ≠ ((2020 : Int), (2025 : Int)) :=
  ⟨rfl, by decide, by decide, by decide, by decide⟩

/-- C9 (amended): `parse_year_range` returns `(start, end)` exactly when the
string splits on `'-'` into two pieces each parseable by `int` (which also
precludes a negative start); every other string yields the default
`(2020, 2025)` with a warning. -/
theorem parse_year_range_spec (s : String) :
    (∀ p0 p1 : List Char, ∀ x y : Int, splitOnChar '-' s.data = [p0, p1] →
      pyIntStr (String.mk p0) = some x → pyIntStr (String.mk p1) = some y →
      parse_year_range s = (x, y)) ∧
    ((¬ ∃ p0 p1 : List Char, ∃ x y : Int, splitOnChar '-' s.data = [p0, p1] ∧
      pyIntStr (String.mk p0) = some x ∧ pyIntStr (String.mk p1) = some y) →
      parse_year_range s = (2020, 2025)) := by
  constructor
  · intro p0 p1 x y hsplit hx hy2
    rw [parse_year_range, if_pos (splitOnChar_pair_contains hsplit), hsplit]
    simp [hx, hy2]
  · intro hno
    rw [parse_year_range]
    by_cases hc : s.data.contains '-' = true
    · rw [if_pos hc]
      cases hsp : splitOnChar '-' s.data with
      | nil => rfl
      | cons a t =>
        cases t with
        | nil => rfl
        | cons b t2 =>
          cases t2 with
          | nil =>
            cases hx : pyIntStr (String.mk a) with
            | none => simp [hx]
            | some x =>
              cases hy2 : pyIntStr (String.mk b) with
              | none => simp [hx, hy2]
              | some y => exact absurd ⟨a, b, x, y, hsp, hx, hy2⟩ hno
          | cons c t3 => rfl
    · rw [if_neg hc]

/-- C9 witness: a well-formed range string parses to its two years. -/
theorem parse_year_range_spec_witness : parse_year_range "2018-2022" = (2018, 2022) :=
  (parse_year_range_spec "2018-2022").1 "2018".data "2022".data 2018 2022
    (by decide) (by decide) (by decide)

/-! ## Claim C6: the scrape fallback merge -/

theorem lookup_map_pair {l : List Int} {f : Int → Int} {y : Int} (hy : y ∈ l) :
    (l.map (fun z => (z, f z))).lookup y = some (f y) := by
  induction l with
  | nil => cases hy
  | cons a rest ih =>
    rw [List.map_cons]
    by_cases h : y = a
    · subst h
      simp [List.lookup]
    · have hbk : (y == a) = false := beq_eq_false_iff_ne.mpr h
      simp only [List.lookup, hbk]
      exact ih ((List.mem_cons.mp hy).resolve_left h)

/-- C6 counterexample: a page whose matching row carries the price `0 €/m²`
makes `fetch_year_data` yield the price `0`, but the merge discards it
(`if price:` is false at `0`) and the output uses the fallback-table value
4800 for 2020 instead. -/
theorem scrape_merge_zero_price_counterexample :
    fetch_year_data [["Rue Brossolette", "0 €/m²"]] = some 0 ∧
    scrape_lepriximmo (fun _ => fetch_year_data [["Rue Brossolette", "0 €/m²"]]) 2020 2020 =
      [(2020, 4800)] ∧ (4800 : Int) ≠ 0 :=
  ⟨by decide, by decide, by decide⟩

/-- C6 (amended): for every year of the requested range, a nonzero scraped
price is used as-is; a failed fetch or a scraped zero falls back to the
static table value; a year outside the table falls back to the global
default 5500. -/
theorem scrape_fallback_merge (fetch : Int → Option Int) (startY endY y : Int)
    (hy : y ∈ rangeInts startY endY) :
    (∀ p : Int, fetch y = some p → p ≠ 0 →
      (scrape_lepriximmo fetch startY endY).lookup y = some p) ∧
    (fetch y = none ∨ fetch y = some 0 →
      (scrape_lepriximmo fetch startY endY).lookup y = some (fbVal y)) ∧
    (fetch y = none → fallback_data.find? (fun p => p.1 = y) = none →
      (scrape_lepriximmo fetch startY endY).lookup y = some 5500) := by
  have base : (scrape_lepriximmo fetch startY endY).lookup y =
      some (mergeYear (fetch y) y) := lookup_map_pair hy
  refine ⟨?_, ?_, ?_⟩
  · intro p hp hnz
    rw [base, hp]
    simp [mergeYear, hnz]
  · intro h
    rcases h with h | h <;> rw [base, h] <;> simp [mergeYear]
  · intro h hfind
    rw [base, h]
    simp [mergeYear, fbVal, hfind]

/-- C6 witness: year 2031 is outside both the scraped results and the
fallback table, and the merged output equals the global default 5500. -/
theorem scrape_fallback_merge_witness :
    (scrape_lepriximmo (fun _ => none) 2025 2031).lookup 2031 = some 5500 :=
  (scrape_fallback_merge (fun _ => none) 2025 2031 2031 (by decide)).2.2 rfl (by decide)

/-! ## Claim C4: which rows the per-year extraction considers -/

/-- Following the claim's words (for comparison with the code): consider
only the FIRST table row whose leading cell contains the street substring;
if that row has no parseable price pattern, the year yields absence. -/
def claimedFirstRowExtract (rows : List (List String)) : Option Int :=
  match rows.find? rowMatches with
  | some cells => scanCells cells
  | none => none

/-- C4 counterexample: on a page whose first matching row has no price
pattern but whose second matching row has one, the claimed behaviour is
absence while `fetch_year_data` continues past the first matching row and
returns 5005. -/
theorem fetch_year_data_later_rows_counterexample :
    claimedFirstRowExtract [["Rue Brossolette"], ["Rue Brossolette bis", "5 005 €/m²"]] =
      none ∧
    fetch_year_data [["Rue Brossolette"], ["Rue Brossolette bis", "5 005 €/m²"]] =
      some 5005 :=
  ⟨by decide, by decide⟩

/-- C4 (amended): the extraction scans every row whose leading cell contains
the street substring, in document order, and returns the first price that
parses in any of them (scanning each row's cells left to right); it yields
absence only when no matching row contains a parseable price pattern. -/
theorem fetch_year_data_scans_all_matching_rows (rows : List (List String)) :
    fetch_year_data rows = (rows.filter rowMatches).findSome? scanCells := by
  induction rows with
  | nil => rfl
  | cons cells rest ih =>
    rw [fetch_year_data]
    by_cases h : rowMatches cells
    · rw [if_pos h, List.filter_cons_of_pos h, List.findSome?_cons]
      cases hs : scanCells cells with
      | none => simp [hs, ih]
      | some p => simp [hs]
    · rw [if_neg h, List.filter_cons_of_neg (by simp [h]), ih]

/-! ## Claim C5: postal-code and surface exclusions -/

theorem filterMap_filter_of_none {α β : Type} (p : α → Bool) (f : α → Option β)
    (hf : ∀ a, p a = false → f a = none) :
    ∀ l : List α, (l.filter p).filterMap f = l.filterMap f := by
  intro l
  induction l with
  | nil => rfl
  | cons a rest ih =>
    by_cases h : p a
    · rw [List.filter_cons_of_pos h, List.filterMap_cons, List.filterMap_cons, ih]
    · rw [List.filter_cons_of_neg (by simp [h]), List.filterMap_cons,
        hf a (Bool.not_eq_true _ ▸ h), ih]

/-- C5: the bulk filter emits nothing from a record whose stripped postal
code differs from "92400", nothing from a record whose
`surface_reelle_bati` is empty or `"0"`, and on a mixed input set the
output is unchanged when the records with non-matching postal codes are
removed: no Transaction comes from them. -/
theorem bulk_filter_exclusions (year : String) (r : RawRecord) (rows : List RawRecord) :
    ((pyStrip r.code_postal ≠ "92400" ∨ r.surface_reelle_bati = "" ∨
        r.surface_reelle_bati = "0") → processRow year r = none) ∧
    process_transactions (rows.filter (fun q => pyStrip q.code_postal = "92400")) year =
      process_transactions rows year := by
  constructor
  · intro h
    rcases h with hp | hs | hs0
    · simp [processRow, hp]
    · have e1 : pyStrip "" = "" := rfl
      simp [processRow, hs, e1]
    · have e1 : pyStrip "0" = "0" := by decide
      have e2 : pyFloat (commaToDot "0") = some 0 := by decide
      simp only [processRow, hs0, e1, e2]
      cases hv : pyFloat (commaToDot (pyStrip r.valeur_fonciere)) with
      | none => simp [hv]
      | some v => simp [hv]
  · refine filterMap_filter_of_none _ _ ?_ rows
    intro q hq
    have hne : pyStrip q.code_postal ≠ "92400" := by
      intro he
      rw [he] at hq
      simp at hq
    simp [processRow, hne]

/-- C5 witness: a concrete record with postal code 75001 is dropped. -/
theorem bulk_filter_exclusions_witness :
    processRow "2021" { recGood with code_postal := "75001" } = none :=
  (bulk_filter_exclusions "2021" { recGood with code_postal := "75001" } []).1
    (Or.inl (by decide))

/-! ## Claims C1 and C2: the per-record transform -/

/-- Inversion of `processRow`: an emitted Transaction comes from parsed
value/surface rationals with a positive surface, and the stored numeric
fields are the stated functions of them. -/
theorem processRow_inversion (year : String) (r : RawRecord) (t : Transaction)
    (h : processRow year r = some t) :
    ∃ v s : ℚ, pyFloat (commaToDot (pyStrip r.valeur_fonciere)) = some v ∧
      pyFloat (commaToDot (pyStrip r.surface_reelle_bati)) = some s ∧ 0 < s ∧
      t.price = truncRat v ∧ t.surface_m2 = truncRat s ∧
      t.price_per_m2 = roundTo2 (qDiv v s) := by
  simp only [processRow] at h
  by_cases h1 : pyStrip r.code_postal ≠ "92400" ∨
      strContains (if r.adresse_nom_voie ≠ "" then pyUpper r.adresse_nom_voie else "")
        "BROSSOLETTE" = false
  · rw [if_pos h1] at h
    exact absurd h (by simp)
  · rw [if_neg h1] at h
    by_cases h2 : pyStrip r.valeur_fonciere = "" ∨ pyStrip r.surface_reelle_bati = ""
    · rw [if_pos h2] at h
      exact absurd h (by simp)
    · rw [if_neg h2] at h
      cases hv : pyFloat (commaToDot (pyStrip r.valeur_fonciere)) with
      | none =>
        rw [hv] at h
        simp at h
      | some v =>
        cases hs : pyFloat (commaToDot (pyStrip r.surface_reelle_bati)) with
        | none =>
          rw [hv, hs] at h
          simp at h
        | some s0 =>
          rw [hv, hs] at h
          by_cases hpos : 0 < s0
          · simp only [hpos, if_true] at h
            obtain rfl := Option.some.inj h
            exact ⟨v, s0, rfl, rfl, hpos, rfl, rfl, rfl⟩
          · simp [hpos] at h

/-- The transaction produced from `recGood`. -/
def txGood : Transaction :=
  { year := "2021", date := some "2021-03-15", address := "12 Rue Brossolette, 92400",
    price := 1000000, surface_m2 := 100, price_per_m2 := 10000,
    property_type := "Appartement" }

/-- C1 counterexample: with value `"100.5"` and surface `"2"` the stored
price is the truncated 100 and the stored price_per_m2 is
`round(100.5 / 2, 2) = 50.25`, while `round(price / surface, 2)` computed
from the stored (truncated) price is `round(100 / 2, 2) = 50 ≠ 50.25`. -/
theorem price_per_m2_truncated_price_counterexample :
    (processRow "2021" { recGood with
      valeur_fonciere := "100.5",
      surface_reelle_bati := "2" }).map (fun t => (t.price, t.price_per_m2)) =
        some (100, mkRat 201 4) ∧
    roundTo2 ((100 : ℚ) / 2) = 50 ∧
    (mkRat 201 4 : ℚ) ≠ 50 :=
  ⟨by decide, by rw [← qDiv_eq]; decide, by decide⟩

/-- C1 (amended): every Transaction the bulk transform emits stores
`price_per_m2 = round(v / s, 2)` where `v` and `s` are the value and the
surface as parsed, both before truncation; the stored `price` and
`surface_m2` are their truncations. -/
theorem price_per_m2_from_parsed_values (year : String) (r : RawRecord) (t : Transaction)
    (h : processRow year r = some t) :
    ∃ v s : ℚ, pyFloat (commaToDot (pyStrip r.valeur_fonciere)) = some v ∧
      pyFloat (commaToDot (pyStrip r.surface_reelle_bati)) = some s ∧ 0 < s ∧
      t.price = truncRat v ∧ t.surface_m2 = truncRat s ∧
      t.price_per_m2 = roundTo2 (v / s) := by
  obtain ⟨v, s, hv, hs, hpos, hp, hsm, hpp⟩ := processRow_inversion year r t h
  exact ⟨v, s, hv, hs, hpos, hp, hsm, by rw [hpp, qDiv_eq]⟩

/-- C1 witness: the spec's worked example, value 1000000 and surface 100. -/
theorem price_per_m2_from_parsed_values_witness :
    ∃ v s : ℚ, pyFloat (commaToDot (pyStrip recGood.valeur_fonciere)) = some v ∧
      pyFloat (commaToDot (pyStrip recGood.surface_reelle_bati)) = some s ∧ 0 < s ∧
      txGood.price = truncRat v ∧ txGood.surface_m2 = truncRat s ∧
      txGood.price_per_m2 = roundTo2 (v / s) :=
  price_per_m2_from_parsed_values "2021" recGood txGood (by decide)

/-- C2 counterexample: surface `"0.5"` parses to a positive value, so the
record passes the `surface > 0` guard, yet the stored truncated
`surface_m2` is 0, not strictly positive. -/
theorem surface_m2_zero_counterexample :
    pyFloat "0.5" = some (mkRat 1 2) ∧ (0 : ℚ) < mkRat 1 2 ∧
    (processRow "2021" { recGood with surface_reelle_bati := "0.5" }).map
      Transaction.surface_m2 = some 0 :=
  ⟨by decide, by decide, by decide⟩

/-- C2 (amended): every emitted Transaction comes from a parsed surface
`s > 0` and stores its truncation, which is nonnegative; it is strictly
positive exactly when `s ≥ 1`, but a parsed surface in `(0, 1)` is stored
as `surface_m2 = 0`. -/
theorem surface_m2_truncation (year : String) (r : RawRecord) (t : Transaction)
    (h : processRow year r = some t) :
    ∃ s : ℚ, pyFloat (commaToDot (pyStrip r.surface_reelle_bati)) = some s ∧ 0 < s ∧
      t.surface_m2 = truncRat s ∧ 0 ≤ t.surface_m2 ∧ (1 ≤ s → 0 < t.surface_m2) := by
  obtain ⟨v, s, hv, hs, hpos, hp, hsm, hpp⟩ := processRow_inversion year r t h
  have htr : truncRat s = ⌊s⌋ := by
    rw [truncRat_eq, if_pos hpos.le]
  refine ⟨s, hs, hpos, hsm, ?_, ?_⟩
  · rw [hsm, htr]
    exact Int.le_floor.mpr (by exact_mod_cast hpos.le)
  · intro h1
    rw [hsm, htr]
    have : (1 : ℤ) ≤ ⌊s⌋ := Int.le_floor.mpr (by exact_mod_cast h1)
    omega

/-- C2 witness: an integral surface of 100 is stored as the positive 100. -/
theorem surface_m2_truncation_witness :
    ∃ s : ℚ, pyFloat (commaToDot (pyStrip recGood.surface_reelle_bati)) = some s ∧ 0 < s ∧
      txGood.surface_m2 = truncRat s ∧ 0 ≤ txGood.surface_m2 ∧
      (1 ≤ s → 0 < txGood.surface_m2) :=
  surface_m2_truncation "2021" recGood txGood (by decide)

/-! ## Claim C7: failure handling of the bulk download -/

/-- Constant draw streams, for concrete runs. -/
def rngZero : Rng :=
  { nats := fun _ => 0, rats := fun _ => 0 }

/-- A second set of draw streams. -/
def rngOne : Rng :=
  { nats := fun _ => 1, rats := fun _ => 0 }

/-- A `.txt` archive member holding one undecodable byte inside its text. -/
def memBadByte : ZipMember :=
  { name := "data.txt",
    content := litContent "code_postal|adresse_nom_voie\n92400|R" ++ [none] ++
      litContent "UE" }

/-- C7 counterexample: on an archive whose text member contains an
undecodable byte, the lenient decoder (`errors='ignore'`) drops the byte and
the download still returns the parsed records — not the empty sequence the
claim requires for a decode error (nothing raises either way). -/
theorem download_decode_lenient_counterexample :
    memBadByte.content.contains none = true ∧
    download_dvf_file (.archive [memBadByte]) =
      [{ code_postal := "92400", adresse_nom_voie := "RUE" }] ∧
    download_dvf_file (.archive [memBadByte]) ≠ [] :=
  ⟨by decide, by decide, by decide⟩

theorem collect_skip (o : DownloadOutcome) (hdl : download_dvf_file o = [])
    (ys : List (String × DownloadOutcome)) (lbl : String) :
    ∀ xs : List (String × DownloadOutcome),
      collect (xs ++ (lbl, o) :: ys) = collect (xs ++ ys) := by
  intro xs
  induction xs with
  | nil => simp [collect, hdl]
  | cons p rest ih =>
    obtain ⟨l2, o2⟩ := p
    have ih2 : collect (rest.append ((lbl, o) :: ys)) = collect (rest.append ys) := ih
    simp only [List.cons_append, collect, ih2]

/-- C7 (amended): a network failure, a malformed archive, or an archive
without a `.txt` member makes the download return the empty record sequence
instead of raising, and inserting such a failing source anywhere in the
source table leaves the whole run's report unchanged — no error class aborts
the run.  (A decode error cannot occur: undecodable bytes are dropped by the
lenient decoder and the remaining text is still parsed, per the
counterexample.) -/
theorem download_failure_empty_and_run_continues (o : DownloadOutcome)
    (h : o = .netError ∨ o = .badArchive ∨
      ∃ ms, o = .archive ms ∧
        ms.filter (fun m => ".txt".data.isSuffixOf m.name.data) = []) :
    download_dvf_file o = [] ∧
    ∀ xs ys : List (String × DownloadOutcome), ∀ lbl : String, ∀ g : Rng,
      mainBulk (xs ++ (lbl, o) :: ys) g = mainBulk (xs ++ ys) g := by
  have hdl : download_dvf_file o = [] := by
    rcases h with rfl | rfl | ⟨ms, rfl, hms⟩
    · rfl
    · rfl
    · rw [download_dvf_file, hms]
  refine ⟨hdl, ?_⟩
  intro xs ys lbl g
  rw [mainBulk, mainBulk, collect_skip o hdl ys lbl xs]

/-- C7 witness: a network-failing source inserted before a healthy source
changes nothing in the report. -/
theorem download_failure_empty_and_run_continues_witness :
    mainBulk ([] ++ ("2020_H2", DownloadOutcome.netError) ::
        [("2021", DownloadOutcome.archive [⟨"d.txt", litContent "code_postal\n92400"⟩])])
      rngZero =
    mainBulk ([] ++
        [("2021", DownloadOutcome.archive [⟨"d.txt", litContent "code_postal\n92400"⟩])])
      rngZero :=
  (download_failure_empty_and_run_continues DownloadOutcome.netError (Or.inl rfl)).2
    [] [("2021", DownloadOutcome.archive [⟨"d.txt", litContent "code_postal\n92400"⟩])]
    "2020_H2" rngZero

/-! ## Claims C8 and C10: when the sample dataset is substituted -/

theorem collect_any_true (srcs : List (String × DownloadOutcome))
    (h : ∃ p ∈ srcs, download_dvf_file p.2 ≠ []) : (collect srcs).2 = true := by
  induction srcs with
  | nil => obtain ⟨p, hp, _⟩ := h; cases hp
  | cons q rest ih =>
    obtain ⟨l2, o2⟩ := q
    obtain ⟨p, hp, hne⟩ := h
    rcases List.mem_cons.mp hp with hp | hp
    · subst hp
      simp only [collect]
      rw [if_neg hne]
    · simp only [collect]
      by_cases hdl : download_dvf_file o2 = []
      · rw [if_pos hdl]
        exact ih ⟨p, hp, hne⟩
      · rw [if_neg hdl]

/-- Every DVF source failing with a network error. -/
def allNetError : List (String × DownloadOutcome) :=
  dvfLabels.map (fun l => (l, DownloadOutcome.netError))

/-- C8 counterexample: when every bulk source returns no rows, the sample
path draws fresh random values, so two runs on the identical (empty) input
can produce different reports — the bulk report has no timestamp field to
exclude. -/
theorem sample_path_rng_counterexample :
    allNetError.all (fun p => download_dvf_file p.2 = []) = true ∧
    (mainBulk allNetError rngZero).total_transactions = 18 ∧
    (mainBulk allNetError rngOne).total_transactions = 24 ∧
    mainBulk allNetError rngZero ≠ mainBulk allNetError rngOne :=
  ⟨by decide, by decide, by decide, by decide⟩

/-- C8 (amended): whenever at least one bulk source yields rows, the run
takes the real-data path, which depends only on the downloaded data: two
runs on identical source data produce identical reports regardless of the
random draws.  When every source is empty the sample generator's random
draws enter the output, so byte-identical reports are not guaranteed. -/
theorem real_data_idempotent (srcs : List (String × DownloadOutcome)) (g1 g2 : Rng)
    (h : ∃ p ∈ srcs, download_dvf_file p.2 ≠ []) :
    mainBulk srcs g1 = mainBulk srcs g2 := by
  have hany := collect_any_true srcs h
  rw [mainBulk, mainBulk, hany]
  simp

/-- One healthy source with one record that passes the filter. -/
def srcGoodOne : List (String × DownloadOutcome) :=
  [("2021", DownloadOutcome.archive [⟨"d.txt", litContent
    "code_postal|adresse_nom_voie|valeur_fonciere|surface_reelle_bati\n92400|RUE BROSSOLETTE|1000000|100"⟩])]

/-- C8 witness: two runs with different draw streams on the same non-empty
source data give the same report. -/
theorem real_data_idempotent_witness :
    mainBulk srcGoodOne rngZero = mainBulk srcGoodOne rngOne :=
  real_data_idempotent srcGoodOne rngZero rngOne
    ⟨("2021", DownloadOutcome.archive [⟨"d.txt", litContent
      "code_postal|adresse_nom_voie|valeur_fonciere|surface_reelle_bati\n92400|RUE BROSSOLETTE|1000000|100"⟩]),
      by decide, by decide⟩

/-- The real-data report of an empty transaction list: empty statistics,
zero total, the real data-source label. -/
def emptyRealReport : Report :=
  { location := theLocation
    all_transactions := []
    yearly_statistics := []
    total_transactions := 0
    data_source := "DVF (data.gouv.fr)" }

/-- C10: the sample dataset is substituted only when every source's download
returns zero rows: as soon as one source yields rows, the report is the
real-data report of the collected transactions — and if no row passes the
filter it is the empty real-data report with the real data-source label,
zero total and empty statistics, not the sample. -/
theorem real_path_on_any_rows (srcs : List (String × DownloadOutcome)) (g : Rng)
    (h : ∃ p ∈ srcs, download_dvf_file p.2 ≠ []) :
    mainBulk srcs g = realReport (collect srcs).1 ∧
    ((collect srcs).1 = [] → mainBulk srcs g = emptyRealReport) := by
  have hany := collect_any_true srcs h
  have hmain : mainBulk srcs g = realReport (collect srcs).1 := by
    rw [mainBulk, hany]
    simp
  refine ⟨hmain, ?_⟩
  intro hempty
  rw [hmain, hempty]
  rfl

/-- One source yielding rows none of which passes the filter. -/
def srcNoMatch : List (String × DownloadOutcome) :=
  [("2021", DownloadOutcome.archive [⟨"d.txt", litContent
    "code_postal|surface_reelle_bati\n75000|50"⟩])]

/-- C10 witness: a non-empty download with no matching record produces the
empty real-data report, not the sample. -/
theorem real_path_on_any_rows_witness :
    mainBulk srcNoMatch rngZero = emptyRealReport :=
  (real_path_on_any_rows srcNoMatch rngZero
    ⟨("2021", DownloadOutcome.archive [⟨"d.txt", litContent
      "code_postal|surface_reelle_bati\n75000|50"⟩]), by decide, by decide⟩).2
    (by decide)

/-! ## Claim C3: the yearly aggregation

The year keys of `by_year` are sorted as strings; the program's year labels
are the four-digit strings cut from the `DVF_URLS` keys, on which string
order and numeric order agree.  `canonYear` captures that domain. -/

/-- A canonical year label: four ASCII digits. -/
def canonYear (y : String) : Bool :=
  y.data.length = 4 && y.data.all Char.isDigit

theorem digitsFold_shift (l : List Char) (n : Nat) :
    digitsFold n l = n * 10 ^ l.length + digitsFold 0 l := by
  induction l generalizing n with
  | nil =>
    have e : digitsFold n [] = n := rfl
    have e0 : digitsFold 0 ([] : List Char) = 0 := rfl
    rw [e, e0]
    simp
  | cons c cs ih =>
    have e1 : digitsFold n (c :: cs) = digitsFold (10 * n + (c.toNat - 48)) cs := rfl
    have e2 : digitsFold 0 (c :: cs) = digitsFold (10 * 0 + (c.toNat - 48)) cs := rfl
    rw [e1, e2, ih (10 * n + (c.toNat - 48)), ih (10 * 0 + (c.toNat - 48)),
      List.length_cons, pow_succ]
    ring

theorem digitsValN_cons (c : Char) (cs : List Char) :
    digitsValN (c :: cs) = (c.toNat - 48) * 10 ^ cs.length + digitsValN cs := by
  have e : digitsValN (c :: cs) = digitsFold (10 * 0 + (c.toNat - 48)) cs := rfl
  have e0 : digitsValN cs = digitsFold 0 cs := rfl
  rw [e, e0, digitsFold_shift cs (10 * 0 + (c.toNat - 48))]
  simp

theorem isDigit_toNat_le (c : Char) (h : c.isDigit = true) :
    48 ≤ c.toNat ∧ c.toNat ≤ 57 := by
  simp [Char.isDigit] at h
  exact ⟨h.1, h.2⟩

theorem digitsValN_lt (l : List Char) (h : l.all Char.isDigit = true) :
    digitsValN l < 10 ^ l.length := by
  induction l with
  | nil =>
    have e : digitsValN [] = 0 := rfl
    rw [e]
    simp
  | cons c cs ih =>
    rw [List.all_cons, Bool.and_eq_true] at h
    have hd : c.toNat - 48 ≤ 9 := by
      have := isDigit_toNat_le c h.1
      omega
    have hv := ih h.2
    have hP : 0 < 10 ^ cs.length := pow_pos (by norm_num) _
    rw [digitsValN_cons, List.length_cons, pow_succ]
    calc (c.toNat - 48) * 10 ^ cs.length + digitsValN cs
        < (c.toNat - 48) * 10 ^ cs.length + 10 ^ cs.length := Nat.add_lt_add_left hv _
      _ = (c.toNat - 48 + 1) * 10 ^ cs.length := by ring
      _ ≤ 10 * 10 ^ cs.length := Nat.mul_le_mul_right _ (by omega)
      _ = 10 ^ cs.length * 10 := by ring

theorem lex_digitsValN_lt {l1 l2 : List Char} (hlex : List.Lex (· < ·) l1 l2) :
    l1.length = l2.length → l1.all Char.isDigit = true → l2.all Char.isDigit = true →
    digitsValN l1 < digitsValN l2 := by
  induction hlex with
  | nil =>
    intro hlen _ _
    simp at hlen
  | @cons a as bs _ ih =>
    intro hlen h1 h2
    rw [List.length_cons, List.length_cons] at hlen
    rw [List.all_cons, Bool.and_eq_true] at h1 h2
    have hL : as.length = bs.length := Nat.succ_injective hlen
    have hv := ih hL h1.2 h2.2
    rw [digitsValN_cons, digitsValN_cons, hL]
    exact Nat.add_lt_add_left hv _
  | @rel a as b bs hab =>
    intro hlen h1 h2
    rw [List.length_cons, List.length_cons] at hlen
    rw [List.all_cons, Bool.and_eq_true] at h1 h2
    have hL : as.length = bs.length := Nat.succ_injective hlen
    have hba := isDigit_toNat_le a h1.1
    have hbb := isDigit_toNat_le b h2.1
    have hlt : a.toNat < b.toNat := hab
    have hdd : a.toNat - 48 + 1 ≤ b.toNat - 48 := by omega
    have hv1 : digitsValN as < 10 ^ bs.length := hL ▸ digitsValN_lt as h1.2
    rw [digitsValN_cons, digitsValN_cons, hL]
    calc (a.toNat - 48) * 10 ^ bs.length + digitsValN as
        < (a.toNat - 48) * 10 ^ bs.length + 10 ^ bs.length := Nat.add_lt_add_left hv1 _
      _ = (a.toNat - 48 + 1) * 10 ^ bs.length := by ring
      _ ≤ (b.toNat - 48) * 10 ^ bs.length := Nat.mul_le_mul_right _ hdd
      _ ≤ (b.toNat - 48) * 10 ^ bs.length + digitsValN bs := Nat.le_add_right _ _

theorem isDigit_not_isWS {c : Char} (h : c.isDigit = true) : isWS c = false := by
  have hb := isDigit_toNat_le c h
  by_contra hws
  rw [Bool.not_eq_false] at hws
  simp only [isWS, Bool.or_eq_true, decide_eq_true_eq] at hws
  rcases hws with (((((h1 | h1) | h1) | h1) | h1) | h1) | h1 <;> subst h1 <;>
    revert hb <;> decide

theorem dropWhile_isWS_eq_self {l : List Char} (h : ∀ c ∈ l, isWS c = false) :
    l.dropWhile isWS = l := by
  cases l with
  | nil => rfl
  | cons c cs =>
    rw [List.dropWhile_cons, h c (List.mem_cons_self c cs)]
    simp

theorem pyStripL_eq_self {l : List Char} (h : ∀ c ∈ l, isWS c = false) :
    pyStripL l = l := by
  rw [pyStripL, dropWhile_isWS_eq_self h, dropWhile_isWS_eq_self, List.reverse_reverse]
  intro c hc
  exact h c (List.mem_reverse.mp hc)

/-- On a canonical year label, Python's `int` is the digit value. -/
theorem strToIntD_canon (y : String) (h : canonYear y = true) :
    strToIntD y = (digitsValN y.data : Int) := by
  rw [canonYear, Bool.and_eq_true, decide_eq_true_eq] at h
  obtain ⟨hlen, hdig⟩ := h
  have hstrip : pyStripL y.data = y.data :=
    pyStripL_eq_self (fun c hc => isDigit_not_isWS (by
      rw [List.all_eq_true] at hdig
      exact hdig c hc))
  cases hy2 : y.data with
  | nil => rw [hy2] at hlen; simp at hlen
  | cons c cs =>
    rw [hy2] at hstrip hdig
    rw [List.all_cons, Bool.and_eq_true] at hdig
    have hc1 : ¬ c = '+' := by
      intro he
      rw [he] at hdig
      exact absurd hdig.1 (by decide)
    have hc2 : ¬ c = '-' := by
      intro he
      rw [he] at hdig
      exact absurd hdig.1 (by decide)
    have hall : (c :: cs).all Char.isDigit = true := by
      rw [List.all_cons, Bool.and_eq_true]
      exact hdig
    have hopt : digitsValOpt (c :: cs) = some (digitsValN (c :: cs)) := by
      rw [digitsValOpt, if_pos ⟨List.cons_ne_nil c cs, hall⟩]
    rw [strToIntD, pyIntStr, hy2, hstrip]
    simp [hc1, hc2, hopt]

/-- String order agrees with numeric order on canonical year labels. -/
theorem canon_lt_val {y1 y2 : String} (h1 : canonYear y1 = true)
    (h2 : canonYear y2 = true) (hlt : y1 < y2) : strToIntD y1 < strToIntD y2 := by
  have hlex : List.Lex (· < ·) y1.data y2.data := String.lt_iff_toList_lt.mp hlt
  rw [canonYear, Bool.and_eq_true, decide_eq_true_eq] at h1 h2
  have hval := lex_digitsValN_lt hlex (h1.1.trans h2.1.symm) h1.2 h2.2
  rw [strToIntD_canon y1 (by rw [canonYear, Bool.and_eq_true, decide_eq_true_eq]; exact h1),
    strToIntD_canon y2 (by rw [canonYear, Bool.and_eq_true, decide_eq_true_eq]; exact h2)]
  exact_mod_cast hval

theorem sortedYears_sorted (txs : List Transaction) :
    List.Sorted (· ≤ ·) (sortedYears txs) :=
  List.sorted_insertionSort _ _

theorem sortedYears_nodup (txs : List Transaction) : (sortedYears txs).Nodup :=
  (List.perm_insertionSort (α := String) (· ≤ ·) (txs.map Transaction.year).dedup).nodup_iff.mpr
    (List.nodup_dedup _)

theorem sortedYears_mem {txs : List Transaction} {y : String} :
    y ∈ sortedYears txs ↔ y ∈ txs.map Transaction.year := by
  rw [sortedYears, List.mem_insertionSort, List.mem_dedup]

theorem sortedYears_sorted_lt (txs : List Transaction) :
    List.Sorted (· < ·) (sortedYears txs) :=
  ((sortedYears_sorted txs).and (sortedYears_nodup txs)).imp
    (fun hab => lt_of_le_of_ne hab.1 hab.2)

theorem statFor_year {txs : List Transaction} {y : String} {s : YearlyStatistic}
    (h : statFor txs y = some s) : s.year = strToIntD y := by
  simp only [statFor] at h
  by_cases hp : pricesFor txs y = []
  · rw [if_pos hp] at h
    simp at h
  · rw [if_neg hp] at h
    obtain rfl := Option.some.inj h
    rfl

theorem statFor_some {txs : List Transaction} {y : String} (hne : pricesFor txs y ≠ []) :
    statFor txs y = some
      { year := strToIntD y
        avg_price_per_m2 := roundTo2 (qDiv (qSum (pricesFor txs y))
          ((pricesFor txs y).length : ℚ))
        min_price_per_m2 := roundTo2 (listMin (pricesFor txs y))
        max_price_per_m2 := roundTo2 (listMax (pricesFor txs y))
        transaction_count := (pricesFor txs y).length } := by
  simp only [statFor]
  rw [if_neg hne]

theorem yearlyStats_years_sublist (txs : List Transaction) (l : List String) :
    ((l.filterMap (statFor txs)).map YearlyStatistic.year).Sublist (l.map strToIntD) := by
  induction l with
  | nil => simp
  | cons y rest ih =>
    rw [List.map_cons, List.filterMap_cons]
    cases hst : statFor txs y with
    | none => exact ih.cons _
    | some s =>
      rw [List.map_cons, statFor_year hst]
      exact ih.cons₂ _

theorem yearlyStats_sorted (txs : List Transaction)
    (hy : ∀ t ∈ txs, canonYear t.year = true) :
    List.Sorted (· < ·) ((yearlyStats txs).map YearlyStatistic.year) := by
  have hcanon : ∀ y ∈ sortedYears txs, canonYear y = true := by
    intro y hmem
    obtain ⟨t, ht, rfl⟩ := List.mem_map.mp (sortedYears_mem.mp hmem)
    exact hy t ht
  have hpair : List.Pairwise (fun a b : String => strToIntD a < strToIntD b)
      (sortedYears txs) := by
    refine List.Pairwise.imp_of_mem ?_ (sortedYears_sorted_lt txs)
    intro a b ha hb hab
    exact canon_lt_val (hcanon a ha) (hcanon b hb) hab
  have hmap : List.Pairwise (· < ·) ((sortedYears txs).map strToIntD) :=
    (List.pairwise_map).mpr hpair
  exact hmap.sublist (yearlyStats_years_sublist txs (sortedYears txs))

theorem pairwise_year_unique {l : List YearlyStatistic}
    (h : List.Pairwise (fun a b => a.year < b.year) l) :
    ∀ s1 ∈ l, ∀ s2 ∈ l, s1.year = s2.year → s1 = s2 := by
  induction l with
  | nil =>
    intro s1 h1
    cases h1
  | cons x rest ih =>
    rw [List.pairwise_cons] at h
    intro s1 h1 s2 h2 heq
    rcases List.mem_cons.mp h1 with he1 | h1m
    · rcases List.mem_cons.mp h2 with he2 | h2m
      · rw [he1, he2]
      · exfalso
        rw [he1] at heq
        exact ne_of_lt (h.1 s2 h2m) heq
    · rcases List.mem_cons.mp h2 with he2 | h2m
      · exfalso
        rw [he2] at heq
        exact ne_of_lt (h.1 s1 h1m) heq.symm
      · exact ih h.2 s1 h1m s2 h2m heq

/-- C3 counterexample: value `"0"` yields a Transaction with
`price_per_m2 = 0`, which the aggregation's truthiness filter
(`if tx['price_per_m2']`) drops; the year 2020 then has a Transaction but no
YearlyStatistic at all, and the claimed count/mean equalities fail with it. -/
theorem yearly_stats_zero_price_counterexample :
    (process_transactions [{ recGood with valeur_fonciere := "0" }] "2020").length = 1 ∧
    (process_transactions [{ recGood with valeur_fonciere := "0" }] "2020").map
      Transaction.year = ["2020"] ∧
    yearlyStats (process_transactions [{ recGood with valeur_fonciere := "0" }] "2020") =
      [] :=
  ⟨by decide, by decide, by decide⟩

/-- C3 (amended): under the pipeline's canonical (four-digit) year labels,
the statistics are sorted strictly ascending by year, and for every year
that has at least one Transaction with a nonzero (truthy) `price_per_m2`
there is exactly one YearlyStatistic; its `transaction_count` is the number
of such nonzero-price Transactions of that year, and its `avg_price_per_m2`
is the mean of their `price_per_m2` values rounded to 2 decimals.  Years
all of whose transactions have `price_per_m2 = 0` get no statistic. -/
theorem yearly_aggregation_amended (txs : List Transaction)
    (hy : ∀ t ∈ txs, canonYear t.year = true) :
    List.Sorted (· < ·) ((yearlyStats txs).map YearlyStatistic.year) ∧
    ∀ y : String, y ∈ txs.map Transaction.year → pricesFor txs y ≠ [] →
      ∃ s, s ∈ yearlyStats txs ∧ s.year = strToIntD y ∧
        s.transaction_count = (pricesFor txs y).length ∧
        s.avg_price_per_m2 =
          roundTo2 ((pricesFor txs y).sum / ((pricesFor txs y).length : ℚ)) ∧
        ∀ s2, s2 ∈ yearlyStats txs → s2.year = strToIntD y → s2 = s := by
  have hsorted := yearlyStats_sorted txs hy
  refine ⟨hsorted, ?_⟩
  intro y hmem hne
  have hstat := @statFor_some txs y hne
  have hsmem := List.mem_filterMap.mpr ⟨y, sortedYears_mem.mpr hmem, hstat⟩
  refine ⟨_, hsmem, rfl, rfl, ?_, ?_⟩
  · show roundTo2 (qDiv (qSum (pricesFor txs y)) ((pricesFor txs y).length : ℚ)) = _
    rw [qDiv_eq, qSum_eq]
  · intro s2 hs2 hy2
    have hpw : List.Pairwise (fun a b : YearlyStatistic => a.year < b.year)
        (yearlyStats txs) := (List.pairwise_map).mp hsorted
    exact pairwise_year_unique hpw s2 hs2 _ hsmem (by rw [hy2])

/-- C3 witness: one transaction in 2021 yields exactly one statistic with
count 1 and the rounded mean. -/
theorem yearly_aggregation_amended_witness :
    ∃ s, s ∈ yearlyStats [txGood] ∧ s.year = strToIntD "2021" ∧
      s.transaction_count = (pricesFor [txGood] "2021").length ∧
      s.avg_price_per_m2 =
        roundTo2 ((pricesFor [txGood] "2021").sum / ((pricesFor [txGood] "2021").length : ℚ)) ∧
      ∀ s2, s2 ∈ yearlyStats [txGood] → s2.year = strToIntD "2021" → s2 = s :=
  (yearly_aggregation_amended [txGood] (by decide)).2 "2021" (by decide) (by decide)
